import Mathlib

/-!
Verification of the configuration-loader core: the data model, the three
format parsers, the source variants, and the merge/validate/cache pipeline
of ConfigLoader, embedded shallowly from the Python sources
(configloader/core.py, configloader/sources.py, configloader/parsers).
-/

set_option autoImplicit false

namespace ConfigLoaderSpec

/-- A dynamically typed configuration value: string, integer, boolean,
sequence, or nested mapping, mirroring the values a decoded JSON, YAML or
TOML document can hold. -/
inductive CValue where
  | str : String → CValue
  | int : Int → CValue
  | bool : Bool → CValue
  | vlist : List CValue → CValue
  | vdict : List (String × CValue) → CValue

/-- A configuration mapping, modelled as an insertion-ordered association
list with unique keys, the shallow embedding of a Python dict from string
keys to values. -/
abbrev Dict := List (String × CValue)

/-- Dict lookup: the value at the first matching key, none when absent. -/
def lookup : Dict → String → Option CValue
  | [], _ => none
  | (k1, v) :: rest, k => if k1 = k then some v else lookup rest k

/-- Python dict assignment d[k] = v: replace the value in place when the key
is present, otherwise append the new pair at the end. -/
def setKey : Dict → String → CValue → Dict
  | [], k, v => [(k, v)]
  | (k1, v1) :: rest, k, v =>
      if k1 = k then (k, v) :: rest else (k1, v1) :: setKey rest k v

/-- Python d.update(other): for every key of other, in iteration order, set
d[key] to the value of other, the shallow key overwrite of the merge loop. -/
def dictUpdate (d other : Dict) : Dict :=
  other.foldl (fun acc kv => setKey acc kv.1 kv.2) d

/-- Build a dict from a list of pairs by successive assignment, the
embedding of a Python dict comprehension or dict constructed in a loop. -/
def dictOfList (l : List (String × CValue)) : Dict :=
  l.foldl (fun acc kv => setKey acc kv.1 kv.2) []

/-- Left-biased choice on optional values, used to state override facts. -/
def orO (a b : Option CValue) : Option CValue :=
  match a with
  | some v => some v
  | none => b

theorem orO_none (a : Option CValue) : orO a none = a := by
  cases a <;> rfl

theorem orO_assoc (a b c : Option CValue) :
    orO (orO a b) c = orO a (orO b c) := by
  cases a <;> rfl

theorem lookup_setKey (d : Dict) (k k1 : String) (v : CValue) :
    lookup (setKey d k v) k1 = if k = k1 then some v else lookup d k1 := by
  induction d with
  | nil => simp [setKey, lookup]
  | cons hd tl ih =>
      obtain ⟨a, b⟩ := hd
      by_cases hak : a = k
      · subst hak
        simp only [setKey, if_pos rfl, lookup]
        split_ifs <;> simp_all
      · simp only [setKey, if_neg hak, lookup, ih]
        split_ifs <;> simp_all

theorem lookup_eq_none_of_not_mem (d : Dict) (k : String)
    (h : k ∉ d.map Prod.fst) : lookup d k = none := by
  induction d with
  | nil => rfl
  | cons hd tl ih =>
      simp only [List.map, List.mem_cons, not_or] at h
      simp only [lookup]
      rw [if_neg (fun he => h.1 he.symm)]
      exact ih h.2

theorem dictUpdate_nil (d : Dict) : dictUpdate d [] = d := rfl

theorem dictUpdate_cons (d : Dict) (kv : String × CValue) (l : Dict) :
    dictUpdate d (kv :: l) = dictUpdate (setKey d kv.1 kv.2) l := rfl

/-- Lookup after a shallow-overwrite merge: the later mapping wins on every
key it holds, and keys absent from it keep the earlier value. -/
theorem lookup_dictUpdate (d e : Dict) (k : String)
    (he : (e.map Prod.fst).Nodup) :
    lookup (dictUpdate d e) k = orO (lookup e k) (lookup d k) := by
  induction e generalizing d with
  | nil => simp [dictUpdate_nil, lookup, orO]
  | cons hd tl ih =>
      obtain ⟨a, b⟩ := hd
      simp only [List.map, List.nodup_cons] at he
      rw [dictUpdate_cons, ih _ he.2]
      simp only [lookup, setKey, lookup_setKey]
      by_cases hak : a = k
      · subst hak
        rw [lookup_eq_none_of_not_mem tl a he.1]
        simp [orO]
      · simp [hak, orO]

/-- Lookup through a left fold of shallow merges: the last dict holding the
key wins, scanning the folded list right to left; keys absent everywhere
fall back to the accumulator. -/
theorem lookup_foldl_dictUpdate (ds : List Dict) (acc : Dict) (k : String)
    (h : ∀ d ∈ ds, (d.map Prod.fst).Nodup) :
    lookup (ds.foldl dictUpdate acc) k =
      orO (ds.reverse.findSome? (fun d => lookup d k)) (lookup acc k) := by
  induction ds generalizing acc with
  | nil => simp [orO]
  | cons d tl ih =>
      simp only [List.foldl, List.reverse_cons, List.findSome?_append]
      rw [ih _ (fun x hx => h x (List.mem_cons_of_mem d hx))]
      rw [lookup_dictUpdate acc d k (h d (List.mem_cons_self d tl))]
      simp only [List.findSome?]
      cases hfs : List.findSome? (fun d => lookup d k) tl.reverse with
      | some v => simp [orO, Option.or]
      | none =>
          cases hl : lookup d k with
          | some v => simp [orO, Option.or]
          | none => simp [orO, Option.or]

/-! ## Format parsers (configloader/parsers) -/

/-- What the underlying format library (json.load, toml.load,
yaml.safe_load) produced for the file: a decoded top-level value, or the
format-specific decode exception for syntactically invalid content. -/
inductive Decoded where
  | value : CValue → Decoded
  | decodeError : String → Decoded

/-- Outcome of a Python method: a returned dict, or a raised exception
carrying its message. -/
inductive PyOutcome where
  | ret : Dict → PyOutcome
  | raised : String → PyOutcome

/-- JSONParser.load (parsers/json_parser.py): starts with an empty dict,
runs json.load; a non-dict top level raises ValueError; a JSONDecodeError
is caught, only logged, and the initial empty dict is returned. -/
def jsonParserLoad (d : Decoded) : PyOutcome :=
  match d with
  | .value v =>
      match v with
      | .vdict m => .ret m
      | _ => .raised "Config file is not a valid JSON file."
  | .decodeError _ => .ret []

/-- TOMLParser.load (parsers/toml_parser.py): same shape as the JSON
variant; TomlDecodeError is caught and only logged, returning the initial
empty dict. -/
def tomlParserLoad (d : Decoded) : PyOutcome :=
  match d with
  | .value v =>
      match v with
      | .vdict m => .ret m
      | _ => .raised "Config file is not a valid TOML file."
  | .decodeError _ => .ret []

/-- YAMLParser.load (parsers/yaml_parser.py): same shape; YAMLError is
caught and only logged, returning the initial empty dict. -/
def yamlParserLoad (d : Decoded) : PyOutcome :=
  match d with
  | .value v =>
      match v with
      | .vdict m => .ret m
      | _ => .raised "Config file is not a valid YAML file."
  | .decodeError _ => .ret []

/-- The parser variant selected by ConfigLoader._get_parser. -/
inductive ParserKind where
  | toml
  | yaml
  | json
deriving DecidableEq

/-- Dispatch a load call to the selected parser variant. -/
def parserLoad (p : ParserKind) (d : Decoded) : PyOutcome :=
  match p with
  | .toml => tomlParserLoad d
  | .yaml => yamlParserLoad d
  | .json => jsonParserLoad d

/-! ## Configuration sources (configloader/sources.py) -/

/-- Python str.startswith: character-for-character, case-sensitive prefix
test. -/
def isPfx : List Char → List Char → Bool
  | [], _ => true
  | _ :: _, [] => false
  | a :: as, b :: bs => a = b && isPfx as bs

/-- str.startswith lifted to strings. -/
def strStartsWith (p s : String) : Bool :=
  isPfx p.toList s.toList

/-- Python slicing from a character index to the end. -/
def strDrop (s : String) (n : Nat) : String :=
  String.mk (s.toList.drop n)

/-- Python str.lower, character by character. -/
def lowerStr (s : String) : String :=
  String.mk (s.toList.map Char.toLower)

/-- EnvConfigSource.load: with a falsy prefix (None or the empty string)
produce the empty dict; otherwise scan the environment snapshot, keep the
variables whose raw name starts with the prefix, strip the prefix,
lower-case the remaining key, and keep the raw string value. -/
def envLoad (pfx : Option String) (env : List (String × String)) : Dict :=
  match pfx with
  | none => []
  | some p =>
      if p = "" then []
      else
        env.foldl
          (fun acc kv =>
            if strStartsWith p kv.1 then
              setKey acc (lowerStr (strDrop kv.1 p.length)) (CValue.str kv.2)
            else acc)
          []

/-- CLIConfigSource.load: with no arguments object produce the empty dict;
otherwise keep every attribute of the namespace whose value is not the
None sentinel (false-like values such as False, 0 and the empty string are
kept). -/
def cliLoad (args : Option (List (String × Option CValue))) : Dict :=
  match args with
  | none => []
  | some l =>
      l.foldl
        (fun acc kv =>
          match kv.2 with
          | some v => setKey acc kv.1 v
          | none => acc)
        []

/-- FileConfigSource.load: raise FileNotFoundError when the path does not
exist, otherwise delegate to the parser of the file; a parser raise
propagates, a parser return is the produced dict. -/
def fileSourceLoad (pathExists : Bool) (p : ParserKind) (d : Decoded) :
    Except String Dict :=
  if pathExists then
    match parserLoad p d with
    | .ret m => .ok m
    | .raised msg => .error msg
  else .error "Config file not found"

/-! ## The loader pipeline (configloader/core.py) -/

/-- A configuration source held by the loader: its class name (used in the
SourceLoadError message) and the behavior of its load method, indexed by
how many times load has been invoked on it so far, so that a mutable
source may answer differently on a later invocation. A load either
produces a dict or raises, carrying the exception message. -/
structure Source where
  name : String
  behavior : Nat → Except String Dict

/-- A source whose load always returns the same dict. -/
def constSource (n : String) (d : Dict) : Source :=
  ⟨n, fun _ => .ok d⟩

/-- The error taxonomy of configloader/exceptions.py, restricted to the
kinds the load pipeline can produce. -/
inductive ConfigErr where
  | sourceErr (sourceName : String) (cause : String)
  | validationErr (errors : List String)
  | parserErr (msg : String)

/-- ConfigLoader._load_and_merge_configs: walk the source list in order
starting from an empty accumulator; on success merge with dict.update, on
a raise wrap it in ConfigSourceError naming the source and stop. Besides
the result it returns the updated per-source invocation counters and the
names of the sources whose load was actually invoked, in order. -/
def loadMergeGo : Dict → List Source → List Nat →
    Except ConfigErr Dict × List Nat × List String
  | acc, [], counts => (.ok acc, counts, [])
  | acc, s :: rest, counts =>
      let c := counts.headD 0
      match s.behavior c with
      | .ok cfg =>
          let r := loadMergeGo (dictUpdate acc cfg) rest counts.tail
          (r.1, (c + 1) :: r.2.1, s.name :: r.2.2)
      | .error msg =>
          (.error (.sourceErr s.name msg), (c + 1) :: counts.tail, [s.name])

/-- A caller-supplied pydantic model: constructing it from a dict either
succeeds, yielding the coerced, default-filled instance (viewed as a
dict), or raises a ValidationError carrying the structured error list. -/
structure SchemaModel where
  validate : Dict → Except (List String) Dict

/-- ConfigLoader._validate_config: no model means no check; otherwise
construct the model from the dict, discarding the coerced instance on
success, and wrap a pydantic ValidationError in ConfigValidationError. -/
def validateConfig (model : Option SchemaModel) (config : Dict) :
    Except ConfigErr Unit :=
  match model with
  | none => .ok ()
  | some m =>
      match m.validate config with
      | .ok _ => .ok ()
      | .error errs => .error (.validationErr errs)

/-- The immutable part of a ConfigLoader instance: its ordered source list
and its optional validation model. -/
structure Loader where
  sources : List Source
  configModel : Option SchemaModel

/-- The mutable part of a ConfigLoader instance: the cached configuration
(None until a load succeeded) and the per-source invocation counters,
instrumentation for how often each load method has run. -/
structure LoaderSt where
  cache : Option Dict
  counts : List Nat

/-- Everything observable about one load_config call: its result, the
instance state afterwards, which sources were invoked (in order), and
whether the validation step ran. -/
structure LoadOutcome where
  result : Except ConfigErr Dict
  state : LoaderSt
  invoked : List String
  validated : Bool

/-- The validation step of load_config: a validation failure propagates
with nothing cached; on success the raw merged dict itself is stored in
the cache and returned. -/
def finishValidate (model : Option SchemaModel) (cfg : Dict)
    (counts : List Nat) (log : List String) : LoadOutcome :=
  match validateConfig model cfg with
  | .error e => ⟨.error e, ⟨none, counts⟩, log, true⟩
  | .ok _ => ⟨.ok cfg, ⟨some cfg, counts⟩, log, true⟩

/-- The tail of load_config once the merge loop ran: a merge failure
propagates with nothing cached, otherwise the merged dict goes through
validation. -/
def finishLoad (model : Option SchemaModel)
    (r : Except ConfigErr Dict × List Nat × List String) : LoadOutcome :=
  match r.1 with
  | .error e => ⟨.error e, ⟨none, r.2.1⟩, r.2.2, false⟩
  | .ok cfg => finishValidate model cfg r.2.1 r.2.2

/-- ConfigLoader.load_config: return the cache when set; otherwise run
_load_and_merge_configs, then _validate_config, and only then store the
merged dict in the cache. Note the source stores the raw merged dict: the
coerced model built by validation is discarded. -/
def loadConfig (L : Loader) (st : LoaderSt) : LoadOutcome :=
  match st.cache with
  | some cfg => ⟨.ok cfg, st, [], false⟩
  | none => finishLoad L.configModel (loadMergeGo [] L.sources st.counts)

/-- ConfigLoader._get_sources: the fixed base order File, Environment,
CommandLine, followed by the custom sources in the supplied order. -/
def getSources (fileS envS cliS : Source) (customs : List Source) :
    List Source :=
  [fileS, envS, cliS] ++ customs

/-! ## Parser selection at construction (ConfigLoader._get_parser) -/

/-- The index of the last dot of the name, as Python str.rfind, none when
absent. -/
def lastDot (cs : List Char) : Option Nat :=
  cs.enum.foldl (fun acc p => if p.2 = '.' then some p.1 else acc) none

/-- The final component of a path, as pathlib name: drop trailing
separators, then keep the characters after the last remaining separator. -/
def lastComponent (cs : List Char) : List Char :=
  ((cs.reverse.dropWhile (fun c => c = '/')).takeWhile
    (fun c => ¬ c = '/')).reverse

/-- pathlib suffix of a path string: the part of the final component from
its last dot, provided that dot is neither the first nor the last
character of the component; otherwise the empty string. -/
def pathSuffix (path : String) : String :=
  let base := lastComponent path.toList
  match lastDot base with
  | some i => if 0 < i ∧ i < base.length - 1 then String.mk (base.drop i) else ""
  | none => ""

/-- Strip all leading dots, as Python str.lstrip with a dot argument. -/
def lstripDots (s : String) : String :=
  String.mk (s.toList.dropWhile (fun c => c = '.'))

/-- The extension key computed by _get_parser:
suffix, leading dots stripped, lower-cased. -/
def extOf (path : String) : String :=
  lowerStr (lstripDots (pathSuffix path))

/-- ConfigLoader._get_parser: dispatch on the extension key; an unknown
key raises ConfigParserError, which the surrounding try block of the
source rewraps into another ConfigParserError with a broader message. -/
def getParser (path : String) : Except ConfigErr ParserKind :=
  let ext := extOf path
  if ext = "toml" then .ok .toml
  else if ext = "yaml" then .ok .yaml
  else if ext = "yml" then .ok .yaml
  else if ext = "json" then .ok .json
  else .error (.parserErr
    ("Failed to get parser: Unsupported config file format: " ++ ext))

/-- ConfigLoader.__init__ after path resolution: select the parser for the
resolved path (a failure there aborts construction before any source is
built or loaded), then build the ordered source list with the file source
bound to the selected parser, and start with an empty cache. The file
system data (existence and decoded content) parameterizes the later file
reads: construction itself never consults it. -/
def mkLoader (path : String) (pathExists : Bool) (decoded : Decoded)
    (envPfx : Option String) (env : List (String × String))
    (args : Option (List (String × Option CValue)))
    (model : Option SchemaModel) (customs : List Source) :
    Except ConfigErr (Loader × LoaderSt) :=
  match getParser path with
  | .error e => .error e
  | .ok p =>
      let srcs := getSources
        ⟨"FileConfigSource", fun _ => fileSourceLoad pathExists p decoded⟩
        (constSource "EnvConfigSource" (envLoad envPfx env))
        (constSource "CLIConfigSource" (cliLoad args))
        customs
      .ok (⟨srcs, model⟩, ⟨none, List.replicate srcs.length 0⟩)

/-! ## Pipeline lemmas -/

/-- The sources all succeed at their current invocation counters,
producing these dicts in order. -/
def succeedsWith : List Source → List Nat → List Dict → Prop
  | [], _, [] => True
  | s :: rest, counts, d :: ds =>
      s.behavior (counts.headD 0) = .ok d ∧ succeedsWith rest counts.tail ds
  | _, _, _ => False

/-- When every source succeeds, the merge loop returns the fold of
dict.update over the produced dicts and invokes every source in order. -/
theorem loadMergeGo_ok (srcs : List Source) (counts : List Nat)
    (ds : List Dict) (acc : Dict) (h : succeedsWith srcs counts ds) :
    (loadMergeGo acc srcs counts).1 = .ok (ds.foldl dictUpdate acc) ∧
    (loadMergeGo acc srcs counts).2.2 = srcs.map Source.name := by
  induction srcs generalizing counts ds acc with
  | nil =>
      cases ds with
      | nil => exact ⟨rfl, rfl⟩
      | cons d tl => exact absurd h (by simp [succeedsWith])
  | cons s rest ih =>
      cases ds with
      | nil => exact absurd h (by simp [succeedsWith])
      | cons d tl =>
          obtain ⟨h1, h2⟩ := h
          have ihr := ih counts.tail tl (dictUpdate acc d) h2
          simp only [loadMergeGo, h1, List.foldl, List.map]
          exact ⟨ihr.1, by rw [ihr.2]⟩

/-- One unfolding step of the merge loop, with the scrutinee exposed. -/
theorem loadMergeGo_cons (acc : Dict) (s : Source) (rest : List Source)
    (counts : List Nat) :
    loadMergeGo acc (s :: rest) counts =
      match s.behavior (counts.headD 0) with
      | .ok cfg =>
          ((loadMergeGo (dictUpdate acc cfg) rest counts.tail).1,
            (counts.headD 0 + 1) ::
              (loadMergeGo (dictUpdate acc cfg) rest counts.tail).2.1,
            s.name :: (loadMergeGo (dictUpdate acc cfg) rest counts.tail).2.2)
      | .error msg =>
          (.error (.sourceErr s.name msg), (counts.headD 0 + 1) :: counts.tail,
            [s.name]) := rfl

/-- When the sources before s succeed and the load of s raises, the merge
loop stops at s with a SourceLoadError naming s and invokes exactly the
sources up to and including s. -/
theorem loadMergeGo_fail (pre post : List Source) (s : Source) (msg : String)
    (acc : Dict) (counts : List Nat) (ds : List Dict)
    (hpre : succeedsWith pre counts ds)
    (hfail : s.behavior ((counts.drop pre.length).headD 0) = .error msg) :
    (loadMergeGo acc (pre ++ s :: post) counts).1 =
      .error (.sourceErr s.name msg) ∧
    (loadMergeGo acc (pre ++ s :: post) counts).2.2 =
      pre.map Source.name ++ [s.name] := by
  induction pre generalizing counts ds acc with
  | nil =>
      simp only [List.length_nil, List.drop_zero] at hfail
      rw [List.nil_append, loadMergeGo_cons, hfail]
      exact ⟨rfl, rfl⟩
  | cons p rest ih =>
      cases ds with
      | nil => exact absurd hpre (by simp [succeedsWith])
      | cons d tl =>
          obtain ⟨h1, h2⟩ := hpre
          have hfail2 :
              s.behavior ((counts.tail.drop rest.length).headD 0) =
                .error msg := by
            have hdd : counts.tail.drop rest.length =
                counts.drop (p :: rest).length := by
              rw [← List.drop_one, List.drop_drop, Nat.add_comm]
              rfl
            rw [hdd]
            exact hfail
          have ihr := ih (dictUpdate acc d) counts.tail tl h2 hfail2
          rw [List.cons_append, loadMergeGo_cons, h1]
          exact ⟨ihr.1, congrArg (fun l => p.name :: l) ihr.2⟩

/-- The environment scan loop is the dict built from the filtered,
key-rewritten pairs: keep variables whose raw name starts with the
prefix, strip the prefix, lower-case the remainder, keep the raw value. -/
theorem envLoad_go (p : String) (env : List (String × String)) (acc : Dict) :
    env.foldl
      (fun acc kv =>
        if strStartsWith p kv.1 then
          setKey acc (lowerStr (strDrop kv.1 p.length)) (CValue.str kv.2)
        else acc)
      acc =
    ((env.filter (fun kv => strStartsWith p kv.1)).map
      (fun kv => (lowerStr (strDrop kv.1 p.length), CValue.str kv.2))).foldl
      (fun a kv => setKey a kv.1 kv.2) acc := by
  induction env generalizing acc with
  | nil => rfl
  | cons x tl ih =>
      by_cases hx : strStartsWith p x.1
      · simp [List.filter_cons, hx, ih]
      · simp [List.filter_cons, hx, ih]

/-- envLoad with a non-empty prefix, characterized as a filter and map
over the environment snapshot. -/
theorem envLoad_eq (p : String) (env : List (String × String)) (hp : p ≠ "") :
    envLoad (some p) env =
      dictOfList
        ((env.filter (fun kv => strStartsWith p kv.1)).map
          (fun kv => (lowerStr (strDrop kv.1 p.length), CValue.str kv.2))) := by
  simp only [envLoad, if_neg hp]
  exact envLoad_go p env []

/-- The CLI comprehension is the dict built from the pairs whose value is
not the None sentinel. -/
theorem cliLoad_go (l : List (String × Option CValue)) (acc : Dict) :
    l.foldl
      (fun acc kv =>
        match kv.2 with
        | some v => setKey acc kv.1 v
        | none => acc)
      acc =
    (l.filterMap (fun kv => kv.2.map (fun v => (kv.1, v)))).foldl
      (fun a kv => setKey a kv.1 kv.2) acc := by
  induction l generalizing acc with
  | nil => rfl
  | cons x tl ih =>
      obtain ⟨k, ov⟩ := x
      cases ov with
      | none => simp [List.filterMap_cons, ih]
      | some v => simp [List.filterMap_cons, ih]

/-- cliLoad with an arguments object, characterized as a filterMap. -/
theorem cliLoad_eq (l : List (String × Option CValue)) :
    cliLoad (some l) =
      dictOfList (l.filterMap (fun kv => kv.2.map (fun v => (kv.1, v)))) :=
  cliLoad_go l []

/-- Every pair of a dict after an assignment is the assigned pair or was
already present. -/
theorem mem_setKey (d : Dict) (k : String) (v : CValue) (x : String × CValue)
    (h : x ∈ setKey d k v) : x = (k, v) ∨ x ∈ d := by
  induction d with
  | nil => simpa [setKey] using h
  | cons hd tl ih =>
      obtain ⟨a, b⟩ := hd
      by_cases hak : a = k
      · subst hak
        simp only [setKey, List.mem_cons, if_true, eq_self_iff_true] at h
        rcases h with h2 | h2
        · exact Or.inl h2
        · exact Or.inr (List.mem_cons_of_mem _ h2)
      · simp only [setKey, if_neg hak, List.mem_cons] at h
        rcases h with h2 | h2
        · exact Or.inr (List.mem_cons.mpr (Or.inl h2))
        · rcases ih h2 with h1 | h1
          · exact Or.inl h1
          · exact Or.inr (List.mem_cons_of_mem _ h1)

/-- Every pair of a dict built by successive assignment comes from the
initial dict or from the assigned list. -/
theorem mem_foldl_setKey (l : List (String × CValue)) (acc : Dict)
    (x : String × CValue)
    (h : x ∈ l.foldl (fun a kv => setKey a kv.1 kv.2) acc) :
    x ∈ acc ∨ x ∈ l := by
  induction l generalizing acc with
  | nil => exact Or.inl h
  | cons kv tl ih =>
      rcases ih (setKey acc kv.1 kv.2) (by simpa using h) with h1 | h1
      · rcases mem_setKey _ _ _ _ h1 with he | ha
        · right
          exact List.mem_cons.mpr (Or.inl (by simpa using he))
        · exact Or.inl ha
      · exact Or.inr (List.mem_cons_of_mem _ h1)

/-- Every pair of dictOfList comes from the underlying pair list. -/
theorem mem_dictOfList (l : List (String × CValue)) (x : String × CValue)
    (h : x ∈ dictOfList l) : x ∈ l := by
  rcases mem_foldl_setKey l [] x h with h1 | h1
  · exact absurd h1 (List.not_mem_nil x)
  · exact h1

/-- load_config with a populated cache returns it with no source invoked
and no validation run. -/
theorem loadConfig_cached (L : Loader) (st : LoaderSt) (cfg : Dict)
    (h : st.cache = some cfg) :
    loadConfig L st = ⟨.ok cfg, st, [], false⟩ := by
  unfold loadConfig
  rw [h]

/-- load_config with an empty cache runs the pipeline. -/
theorem loadConfig_uncached (L : Loader) (st : LoaderSt)
    (h : st.cache = none) :
    loadConfig L st =
      finishLoad L.configModel (loadMergeGo [] L.sources st.counts) := by
  unfold loadConfig
  rw [h]

/-- finishLoad after a merge failure: the error propagates, the cache
stays empty, validation does not run. -/
theorem finishLoad_err (model : Option SchemaModel)
    (r : Except ConfigErr Dict × List Nat × List String) (e : ConfigErr)
    (h : r.1 = .error e) :
    finishLoad model r = ⟨.error e, ⟨none, r.2.1⟩, r.2.2, false⟩ := by
  unfold finishLoad
  rw [h]

/-- finishLoad after a merge success and a validation failure: the
validation error propagates and the cache stays empty. -/
theorem finishLoad_vErr (model : Option SchemaModel)
    (r : Except ConfigErr Dict × List Nat × List String) (cfg : Dict)
    (e : ConfigErr) (h1 : r.1 = .ok cfg)
    (h2 : validateConfig model cfg = .error e) :
    finishLoad model r = ⟨.error e, ⟨none, r.2.1⟩, r.2.2, true⟩ := by
  unfold finishLoad
  rw [h1]
  show finishValidate model cfg r.2.1 r.2.2 = _
  unfold finishValidate
  rw [h2]

/-- finishLoad after a merge success and a validation success: the raw
merged dict is cached and returned. -/
theorem finishLoad_ok (model : Option SchemaModel)
    (r : Except ConfigErr Dict × List Nat × List String) (cfg : Dict)
    (h1 : r.1 = .ok cfg) (h2 : validateConfig model cfg = .ok ()) :
    finishLoad model r = ⟨.ok cfg, ⟨some cfg, r.2.1⟩, r.2.2, true⟩ := by
  unfold finishLoad
  rw [h1]
  show finishValidate model cfg r.2.1 r.2.2 = _
  unfold finishValidate
  rw [h2]

/-- A successful load_config call leaves its merged dict in the cache. -/
theorem loadConfig_cache_of_ok (L : Loader) (st : LoaderSt) (cfg : Dict)
    (h : (loadConfig L st).result = .ok cfg) :
    (loadConfig L st).state.cache = some cfg := by
  cases hc : st.cache with
  | some d =>
      have he := loadConfig_cached L st d hc
      rw [he] at h
      have hd : d = cfg := by simpa using h
      subst hd
      rw [he]
      exact hc
  | none =>
      have he := loadConfig_uncached L st hc
      cases hm : (loadMergeGo [] L.sources st.counts).1 with
      | error e =>
          rw [he, finishLoad_err _ _ _ hm] at h
          simp at h
      | ok m =>
          cases hv : validateConfig L.configModel m with
          | error e =>
              rw [he, finishLoad_vErr _ _ _ _ hm hv] at h
              simp at h
          | ok u =>
              have hu : validateConfig L.configModel m = .ok () := by
                rw [hv]
              rw [he, finishLoad_ok _ _ _ hm hu] at h ⊢
              have hd : m = cfg := by simpa using h
              subst hd
              rfl

/-- With an empty cache, load_config invokes exactly the sources the merge
loop reaches. -/
theorem loadConfig_invoked_uncached (L : Loader) (st : LoaderSt)
    (h : st.cache = none) :
    (loadConfig L st).invoked = (loadMergeGo [] L.sources st.counts).2.2 := by
  rw [loadConfig_uncached L st h]
  cases hm : (loadMergeGo [] L.sources st.counts).1 with
  | error e => rw [finishLoad_err _ _ _ hm]
  | ok m =>
      cases hv : validateConfig L.configModel m with
      | error e => rw [finishLoad_vErr _ _ _ _ hm hv]
      | ok u =>
          have hu : validateConfig L.configModel m = .ok () := by
            rw [hv]
          rw [finishLoad_ok _ _ _ hm hu]

/-! ## Claims -/

/-- C1: the claim requires every parser variant to fail with a ParseError
on a file whose content is syntactically invalid for its format, and
never to merely record a log line and return an empty or partial mapping.
The code does the opposite: each parser catches its format decode
exception, logs it, and returns the initial empty dict. This theorem
evaluates the embedded parsers at such a failing input per variant: each
one returns the empty mapping instead of raising. -/
theorem C1_parsers_swallow_decode_errors (e : String) :
    jsonParserLoad (.decodeError e) = .ret [] ∧
    tomlParserLoad (.decodeError e) = .ret [] ∧
    yamlParserLoad (.decodeError e) = .ret [] :=
  ⟨rfl, rfl, rfl⟩

/-- The pydantic model used to settle C2: the field name is required and
the field debug is optional with default false, so validating a dict that
omits debug succeeds and the coerced instance holds the default. -/
def c2Model : SchemaModel :=
  ⟨fun d =>
    match lookup d "name" with
    | some _ => .ok (setKey d "debug" (CValue.bool false))
    | none => .error ["name: Field required"]⟩

/-- A loader over one custom source and the c2Model schema. -/
def c2Loader : Loader :=
  ⟨[constSource "CustomTestSource" [("name", CValue.str "x")]], some c2Model⟩

/-- C2 counterexample: the claim says the mapping load_config caches and
returns is the coerced mapping produced by the validator, defaults
filled. At this concrete loader the validator output holds the defaulted
debug field, but load_config returns and caches the raw merge accumulator
in which debug is absent, so the claim is false. -/
theorem C2_counterexample_raw_not_coerced :
    (loadConfig c2Loader ⟨none, [0]⟩).result =
      .ok [("name", CValue.str "x")] ∧
    (loadConfig c2Loader ⟨none, [0]⟩).state.cache =
      some [("name", CValue.str "x")] ∧
    c2Model.validate [("name", CValue.str "x")] =
      .ok [("name", CValue.str "x"), ("debug", CValue.bool false)] ∧
    lookup [("name", CValue.str "x")] "debug" = none ∧
    lookup [("name", CValue.str "x"), ("debug", CValue.bool false)] "debug" =
      some (CValue.bool false) :=
  ⟨rfl, rfl, rfl, rfl, rfl⟩

/-- C2 amended: when validation succeeds, the mapping load_config caches
and returns is the raw pre-validation merge accumulator; the coerced
mapping the validator produced is discarded, so coercions and defaults
are not reflected in the result. -/
theorem C2_amended_raw_merge_cached (L : Loader) (st : LoaderSt) (cfg : Dict)
    (hcache : st.cache = none)
    (hmerge : (loadMergeGo [] L.sources st.counts).1 = .ok cfg)
    (hval : validateConfig L.configModel cfg = .ok ()) :
    (loadConfig L st).result = .ok cfg ∧
    (loadConfig L st).state.cache = some cfg := by
  rw [loadConfig_uncached L st hcache, finishLoad_ok _ _ _ hmerge hval]
  exact ⟨rfl, rfl⟩

/-- C2 witness: the amended statement at the concrete loader. -/
theorem C2_amended_witness :
    (loadConfig c2Loader ⟨none, [0]⟩).result =
      .ok [("name", CValue.str "x")] ∧
    (loadConfig c2Loader ⟨none, [0]⟩).state.cache =
      some [("name", CValue.str "x")] :=
  C2_amended_raw_merge_cached c2Loader ⟨none, [0]⟩
    [("name", CValue.str "x")] rfl rfl rfl

/-- C3: for a loader whose source list is the construction order File,
Environment, CommandLine then customs, when every source load succeeds
the merged result is exactly the left-to-right fold of shallow key
overwrite over the produced dicts, and on every key the last source
holding it wins while keys absent from later sources keep the earlier
value. -/
theorem C3_merge_is_ordered_shallow_fold (fileS envS cliS : Source)
    (customs : List Source) (ds : List Dict) (counts : List Nat)
    (h : succeedsWith (getSources fileS envS cliS customs) counts ds)
    (hnd : ∀ d ∈ ds, (d.map Prod.fst).Nodup) :
    (loadMergeGo [] (getSources fileS envS cliS customs) counts).1 =
      .ok (ds.foldl dictUpdate []) ∧
    ∀ k, lookup (ds.foldl dictUpdate []) k =
      ds.reverse.findSome? (fun d => lookup d k) := by
  refine ⟨(loadMergeGo_ok _ _ _ _ h).1, fun k => ?_⟩
  rw [lookup_foldl_dictUpdate ds [] k hnd]
  exact orO_none _

/-- C3 witness: the override example of the spec, File producing keys a
and b, Environment and CommandLine empty, one custom source overriding b
and adding c. -/
theorem C3_merge_witness :
    (loadMergeGo []
      (getSources
        (constSource "FileConfigSource"
          [("a", CValue.int 1), ("b", CValue.int 2)])
        (constSource "EnvConfigSource" [])
        (constSource "CLIConfigSource" [])
        [constSource "CustomTestSource"
          [("b", CValue.int 3), ("c", CValue.int 4)]])
      [0, 0, 0, 0]).1 =
      .ok [("a", CValue.int 1), ("b", CValue.int 3), ("c", CValue.int 4)] :=
  ((C3_merge_is_ordered_shallow_fold
    (constSource "FileConfigSource" [("a", CValue.int 1), ("b", CValue.int 2)])
    (constSource "EnvConfigSource" [])
    (constSource "CLIConfigSource" [])
    [constSource "CustomTestSource" [("b", CValue.int 3), ("c", CValue.int 4)]]
    [[("a", CValue.int 1), ("b", CValue.int 2)], [], [],
      [("b", CValue.int 3), ("c", CValue.int 4)]]
    [0, 0, 0, 0]
    ⟨rfl, rfl, rfl, rfl, trivial⟩
    (by decide)).1).trans rfl

/-- C4: once a load_config call has succeeded, the next call on the
resulting state returns the same cached mapping, leaves the state
unchanged, invokes no source and runs no validation, whatever the
sources would now answer. -/
theorem C4_cache_idempotent (L : Loader) (st : LoaderSt) (cfg : Dict)
    (h : (loadConfig L st).result = .ok cfg) :
    loadConfig L (loadConfig L st).state =
      ⟨.ok cfg, (loadConfig L st).state, [], false⟩ :=
  loadConfig_cached L _ cfg (loadConfig_cache_of_ok L st cfg h)

/-- A mutable custom source: its load answers differently on the second
invocation. -/
def c4Source : Source :=
  ⟨"MutableTestSource", fun n =>
    if n = 0 then .ok [("name", CValue.str "first")]
    else .ok [("name", CValue.str "second")]⟩

/-- A loader over the mutable source, without schema. -/
def c4Loader : Loader := ⟨[c4Source], none⟩

/-- C4 witness: after a first successful load the second call returns the
first answer from the cache with no source invocation, although the
source would answer differently when invoked again. -/
theorem C4_cache_witness :
    loadConfig c4Loader (loadConfig c4Loader ⟨none, [0]⟩).state =
      ⟨.ok [("name", CValue.str "first")],
        (loadConfig c4Loader ⟨none, [0]⟩).state, [], false⟩ ∧
    c4Source.behavior 1 = .ok [("name", CValue.str "second")] :=
  ⟨C4_cache_idempotent c4Loader ⟨none, [0]⟩ [("name", CValue.str "first")] rfl,
    rfl⟩

/-- C5: with an empty cache, when the sources before s succeed and the
load of s raises, load_config fails with a SourceLoadError wrapping the
name of s and the underlying cause, invokes exactly the sources up to and
including s (none after it), runs no validation, leaves the cache unset,
and a subsequent call reruns the merge pipeline rather than consulting a
cache. -/
theorem C5_source_failure_fail_fast (L : Loader) (st : LoaderSt)
    (pre post : List Source) (s : Source) (msg : String) (ds : List Dict)
    (hsrc : L.sources = pre ++ s :: post)
    (hcache : st.cache = none)
    (hpre : succeedsWith pre st.counts ds)
    (hfail : s.behavior ((st.counts.drop pre.length).headD 0) = .error msg) :
    (loadConfig L st).result = .error (.sourceErr s.name msg) ∧
    (loadConfig L st).state.cache = none ∧
    (loadConfig L st).invoked = pre.map Source.name ++ [s.name] ∧
    (loadConfig L st).validated = false ∧
    (loadConfig L (loadConfig L st).state).invoked =
      (loadMergeGo [] L.sources (loadConfig L st).state.counts).2.2 := by
  have hfm := loadMergeGo_fail pre post s msg [] st.counts ds hpre hfail
  rw [← hsrc] at hfm
  have he := loadConfig_uncached L st hcache
  rw [he, finishLoad_err _ _ _ hfm.1]
  refine ⟨rfl, rfl, hfm.2, rfl, ?_⟩
  exact loadConfig_invoked_uncached L _ rfl

/-- A source that always fails. -/
def c5Bad : Source := ⟨"FailingSource", fun _ => .error "Source failed to load"⟩

/-- A loader with a succeeding source, then the failing one, then a third
source that must never be reached. -/
def c5Loader : Loader :=
  ⟨[constSource "CustomTestSource" [("a", CValue.int 1)], c5Bad,
    constSource "ThirdSource" [("c", CValue.int 3)]], none⟩

/-- C5 witness: the second of three sources fails, the first and second
are invoked, the third is not, the cache stays unset. -/
theorem C5_failure_witness :
    (loadConfig c5Loader ⟨none, [0, 0, 0]⟩).result =
      .error (.sourceErr "FailingSource" "Source failed to load") ∧
    (loadConfig c5Loader ⟨none, [0, 0, 0]⟩).state.cache = none ∧
    (loadConfig c5Loader ⟨none, [0, 0, 0]⟩).invoked =
      ["CustomTestSource", "FailingSource"] := by
  have h := C5_source_failure_fail_fast c5Loader ⟨none, [0, 0, 0]⟩
    [constSource "CustomTestSource" [("a", CValue.int 1)]]
    [constSource "ThirdSource" [("c", CValue.int 3)]] c5Bad
    "Source failed to load" [[("a", CValue.int 1)]]
    rfl rfl ⟨rfl, trivial⟩ rfl
  exact ⟨h.1, h.2.1, (h.2.2.1).trans rfl⟩

/-- C6: with an empty cache, when the merge succeeds but validation of
the merged mapping fails, load_config aborts with a ValidationError
carrying the structured error list and the cache is left unset. -/
theorem C6_validation_failure_no_cache (L : Loader) (st : LoaderSt)
    (m : SchemaModel) (cfg : Dict) (errs : List String)
    (hcache : st.cache = none)
    (hmodel : L.configModel = some m)
    (hmerge : (loadMergeGo [] L.sources st.counts).1 = .ok cfg)
    (hval : m.validate cfg = .error errs) :
    (loadConfig L st).result = .error (.validationErr errs) ∧
    (loadConfig L st).state.cache = none := by
  have hvc : validateConfig L.configModel cfg =
      .error (.validationErr errs) := by
    rw [hmodel]
    show (match m.validate cfg with
      | Except.ok _ => Except.ok ()
      | Except.error errs => Except.error (ConfigErr.validationErr errs)) =
      Except.error (ConfigErr.validationErr errs)
    rw [hval]
  rw [loadConfig_uncached L st hcache, finishLoad_vErr _ _ _ _ hmerge hvc]
  exact ⟨rfl, rfl⟩

/-- A schema rejecting any dict without the field version, carrying a
structured error entry naming the field. -/
def c6Model : SchemaModel :=
  ⟨fun d =>
    match lookup d "version" with
    | some _ => .ok d
    | none => .error ["version: Field required"]⟩

/-- A loader whose single source omits the version field. -/
def c6Loader : Loader :=
  ⟨[constSource "CustomTestSource" [("name", CValue.str "x")]], some c6Model⟩

/-- C6 witness: validation fails on the merged dict and nothing is
cached. -/
theorem C6_validation_witness :
    (loadConfig c6Loader ⟨none, [0]⟩).result =
      .error (.validationErr ["version: Field required"]) ∧
    (loadConfig c6Loader ⟨none, [0]⟩).state.cache = none :=
  C6_validation_failure_no_cache c6Loader ⟨none, [0]⟩ c6Model
    [("name", CValue.str "x")] ["version: Field required"] rfl rfl rfl rfl

/-- getParser, zeta-expanded. -/
theorem getParser_eq (path : String) :
    getParser path =
      (if extOf path = "toml" then .ok .toml
       else if extOf path = "yaml" then .ok .yaml
       else if extOf path = "yml" then .ok .yaml
       else if extOf path = "json" then .ok .json
       else .error (.parserErr
         ("Failed to get parser: Unsupported config file format: " ++
           extOf path))) := rfl

/-- C7: a path whose extension key (computed case-insensitively) is none
of toml, yaml, yml, json makes loader construction itself fail with the
unsupported-format parser error, whatever the file system, environment,
argument, schema and custom-source data hold (no source is built and the
file is never consulted); each of the four supported extensions selects
the matching parser variant. -/
theorem C7_construction_dispatch (path : String) :
    (extOf path ∉ ["toml", "yaml", "yml", "json"] →
      ∀ pe d ep env args model customs,
        mkLoader path pe d ep env args model customs =
          .error (.parserErr
            ("Failed to get parser: Unsupported config file format: " ++
              extOf path))) ∧
    (extOf path = "toml" → getParser path = .ok .toml) ∧
    (extOf path = "yaml" → getParser path = .ok .yaml) ∧
    (extOf path = "yml" → getParser path = .ok .yaml) ∧
    (extOf path = "json" → getParser path = .ok .json) := by
  refine ⟨?_, ?_, ?_, ?_, ?_⟩
  · intro h pe d ep env args model customs
    simp only [List.mem_cons, List.not_mem_nil, or_false, not_or] at h
    obtain ⟨h1, h2, h3, h4⟩ := h
    have hgp : getParser path = .error (.parserErr
        ("Failed to get parser: Unsupported config file format: " ++
          extOf path)) := by
      rw [getParser_eq, if_neg h1, if_neg h2, if_neg h3, if_neg h4]
    unfold mkLoader
    rw [hgp]
  · intro h
    rw [getParser_eq, h]
    rfl
  · intro h
    rw [getParser_eq, h]
    rfl
  · intro h
    rw [getParser_eq, h]
    rfl
  · intro h
    rw [getParser_eq, h]
    rfl

/-- C7 witness: a path with extension ini fails at construction whatever
the file holds, and an upper-case TOML extension selects the TOML
parser. -/
theorem C7_dispatch_witness :
    mkLoader "config.ini" true (.value (CValue.vdict [])) none [] none
        none [] =
      .error (.parserErr
        ("Failed to get parser: Unsupported config file format: " ++
          extOf "config.ini")) ∧
    getParser "settings.TOML" = .ok .toml :=
  ⟨(C7_construction_dispatch "config.ini").1 (by decide) true
      (.value (CValue.vdict [])) none [] none none [],
    (C7_construction_dispatch "settings.TOML").2.1 (by decide)⟩

/-- C8: the Environment source with the prefix unset or set to the empty
string returns the empty mapping (it never matches every variable);
with a non-empty prefix it returns exactly the dict of the pairs obtained
from variables whose name starts with the prefix, the key being the
prefix-stripped remainder lower-cased and the value the raw unmodified
string. -/
theorem C8_env_source_shape (env : List (String × String)) (p : String) :
    envLoad none env = [] ∧
    envLoad (some "") env = [] ∧
    (p ≠ "" → envLoad (some p) env =
      dictOfList
        ((env.filter (fun kv => strStartsWith p kv.1)).map
          (fun kv => (lowerStr (strDrop kv.1 p.length), CValue.str kv.2)))) :=
  ⟨rfl, rfl, fun hp => envLoad_eq p env hp⟩

/-- C8 witness: prefix APP_ on a snapshot with one matching and one other
variable, evaluated to the single stripped, lower-cased pair with its raw
value. -/
theorem C8_env_witness :
    envLoad (some "APP_") [("APP_DEBUG", "true"), ("HOME", "/root")] =
      dictOfList
        (([("APP_DEBUG", "true"), ("HOME", "/root")].filter
          (fun kv => strStartsWith "APP_" kv.1)).map
          (fun kv =>
            (lowerStr (strDrop kv.1 "APP_".length), CValue.str kv.2))) ∧
    envLoad (some "APP_") [("APP_DEBUG", "true"), ("HOME", "/root")] =
      [("debug", CValue.str "true")] :=
  ⟨(C8_env_source_shape [("APP_DEBUG", "true"), ("HOME", "/root")]
      "APP_").2.2 (by decide), rfl⟩

/-- C9: the CommandLine source with no arguments object returns the empty
mapping; with one it returns exactly the dict of the pairs whose value is
not the None sentinel, so arguments explicitly set to false-like or
zero-like values are included, as the concrete instance shows. -/
theorem C9_cli_source_shape (l : List (String × Option CValue)) :
    cliLoad none = [] ∧
    cliLoad (some l) =
      dictOfList (l.filterMap (fun kv => kv.2.map (fun v => (kv.1, v)))) ∧
    cliLoad (some [("debug", some (CValue.bool false)),
      ("count", some (CValue.int 0)), ("name", some (CValue.str "")),
      ("missing", none)]) =
      [("debug", CValue.bool false), ("count", CValue.int 0),
        ("name", CValue.str "")] :=
  ⟨rfl, cliLoad_eq l, rfl⟩

/-- C10: prefix matching of the Environment source is case-sensitive and
raw: every pair it produces comes from a variable whose raw name starts
with the exact prefix string, character for character, with the
lower-casing applied only to the remainder after the prefix, never to
the prefix comparison, and the raw value kept. -/
theorem C10_env_prefix_case_sensitive (p : String)
    (env : List (String × String)) (hp : p ≠ "") (k : String) (v : CValue)
    (hmem : (k, v) ∈ envLoad (some p) env) :
    ∃ name value, (name, value) ∈ env ∧ strStartsWith p name = true ∧
      k = lowerStr (strDrop name p.length) ∧ v = CValue.str value := by
  rw [envLoad_eq p env hp] at hmem
  have h2 := mem_dictOfList _ _ hmem
  simp only [List.mem_map] at h2
  obtain ⟨kv, hkv, heq⟩ := h2
  rw [List.mem_filter] at hkv
  obtain ⟨hmem2, hpfx⟩ := hkv
  cases heq
  exact ⟨kv.1, kv.2, by simpa using hmem2, hpfx, rfl, rfl⟩

/-- C10 witness: the lower-case prefix app_ does not match the variable
APP_DEBUG, while the exact prefix APP_ matches APP_Debug and only the
remainder is lower-cased. -/
theorem C10_env_prefix_witness :
    envLoad (some "app_") [("APP_DEBUG", "x")] = [] ∧
    (∃ name value, (name, value) ∈ [("APP_Debug", "1")] ∧
      strStartsWith "APP_" name = true ∧
      "debug" = lowerStr (strDrop name "APP_".length) ∧
      CValue.str "1" = CValue.str value) :=
  ⟨rfl,
    C10_env_prefix_case_sensitive "APP_" [("APP_Debug", "1")] (by decide)
      "debug" (CValue.str "1")
      (by
        rw [show envLoad (some "APP_") [("APP_Debug", "1")] =
          [("debug", CValue.str "1")] from rfl]
        exact List.mem_singleton.mpr rfl)⟩

end ConfigLoaderSpec
